import Mathlib

/-!
Verification of the Short.ly short-link engine.

Shallow embedding of the core use cases of the repository:
`CreateShortUrl` (src/core/use-cases/CreateShortUrl.js),
`ResolveUrl` (src/core/use-cases/ResolveUrl.js), the `Url` entity,
the Mongo-backed repositories (MongoUrlRepository, MongoAnalyticsRepository),
the Redis cache repository, the `GetUrlAnalytics` use case and the
`ShortenerService` facade.  JavaScript strings are represented by `String`
(reasoned about through the underlying `List Char`), dates by `Int`
millisecond timestamps, `null`-able values by `Option`, and thrown
exceptions by `Except`.
-/

namespace Shortly

/-! ## JavaScript string primitives

Embeddings of the string operations the source uses:
`String.prototype.startsWith`, `endsWith('/')` and `slice(0, -1)`. -/

/-- `url.startsWith('http://') || url.startsWith('https://')` from
`CreateShortUrl._normalizeUrl`. -/
def hasProtocol (url : String) : Bool :=
  "http://".data.isPrefixOf url.data || "https://".data.isPrefixOf url.data

/-- `url.endsWith('/')`: the last UTF-16 unit is a slash. -/
def endsWithSlash (s : String) : Bool :=
  s.data.getLast? == some '/'

/-- `url.slice(0, -1)`: drop the final character. -/
def jsDropLastChar (s : String) : String :=
  ⟨s.data.dropLast⟩

/-- First step of `CreateShortUrl._normalizeUrl`: prepend `https://` when the
string carries neither `http://` nor `https://`. -/
def withProtocol (url : String) : String :=
  if hasProtocol url then url else "https://" ++ url

/-- `CreateShortUrl._normalizeUrl` (CreateShortUrl.js lines 90-102): ensure a
protocol prefix, then remove one trailing slash when present. -/
def normalizeUrl (url : String) : String :=
  let u := withProtocol url
  if endsWithSlash u then jsDropLastChar u else u

/-! ## Custom-alias validation -/

/-- One character of the alias regex class `[a-zA-Z0-9-_]`. -/
def isAliasChar (c : Char) : Bool :=
  (('a' ≤ c && c ≤ 'z') || ('A' ≤ c && c ≤ 'Z') || ('0' ≤ c && c ≤ '9'))
    || c == '-' || c == '_'

/-- `/^[a-zA-Z0-9-_]+$/.test(alias)`: nonempty and every character in the
class. -/
def aliasRegexTest (s : String) : Bool :=
  !s.data.isEmpty && s.data.all isAliasChar

/-- `CreateShortUrl._isValidCustomAlias` (CreateShortUrl.js lines 139-143). -/
def isValidCustomAlias (s : String) : Bool :=
  aliasRegexTest s && decide (3 ≤ s.data.length) && decide (s.data.length ≤ 50)

/-! ## Model of the WHATWG URL constructor

`Url._validate` checks `new URL(this.originalUrl)`.  The constructor is a
host-platform builtin; the following is a model of the fragment of the
WHATWG basic URL parser that is relevant to the strings this engine feeds
it (scheme recognition, slash skipping for special schemes, authority
splitting, nonempty-host and digit-port requirements).  Tab/newline
stripping, percent-decoding of hosts and IDNA mapping are not modelled. -/

/-- Characters allowed in a URL scheme after the first letter. -/
def schemeChar (c : Char) : Bool :=
  c.isAlphanum || c == '+' || c == '-' || c == '.'

/-- Split `scheme ':' rest`; `none` when no well-formed scheme is present. -/
def splitSchemeAux (acc : List Char) : List Char → Option (List Char × List Char)
  | [] => none
  | c :: cs =>
    if c == ':' then some (acc.reverse, cs)
    else if schemeChar c then splitSchemeAux (c :: acc) cs
    else none

/-- Parse the scheme of an absolute URL reference. -/
def splitScheme : List Char → Option (List Char × List Char)
  | [] => none
  | c :: cs => if c.isAlpha then splitSchemeAux [c] cs else none

/-- Forbidden host code points (WHATWG forbidden domain code points,
written with code points for the quote-like characters). -/
def forbiddenHostChar (c : Char) : Bool :=
  decide (c.val < 32) || c.val == 127 || c == ' ' || c == '#' || c == '%'
    || c == '/' || c == ':' || c == '<' || c == '>' || c == '?' || c == '@'
    || c == '[' || c == '\\' || c == ']' || c == '^' || c == '|'
    || c.val == 34 || c.val == 96 || c.val == 123 || c.val == 125

/-- Model of `new URL(s)` succeeding (no exception thrown). -/
def jsUrlParseOk (s : String) : Bool :=
  match splitScheme s.data with
  | none => false
  | some (scheme, rest) =>
    let scheme := scheme.map Char.toLower
    if scheme == "http".data || scheme == "https".data || scheme == "ws".data
        || scheme == "wss".data || scheme == "ftp".data then
      let rest := rest.dropWhile (fun c => c == '/' || c == '\\')
      let authority :=
        rest.takeWhile (fun c => !(c == '/' || c == '\\' || c == '?' || c == '#'))
      let hostport :=
        if authority.contains '@' then
          (authority.reverse.takeWhile (fun c => c != '@')).reverse
        else authority
      if hostport.isEmpty then false
      else if hostport.head? == some '[' then hostport.getLast? == some ']'
      else
        let host :=
          if hostport.contains ':' then
            ((hostport.reverse.dropWhile (fun c => c != ':')).reverse).dropLast
          else hostport
        let port :=
          if hostport.contains ':' then
            (hostport.reverse.takeWhile (fun c => c != ':')).reverse
          else []
        !host.isEmpty && host.all (fun c => !forbiddenHostChar c)
          && port.all (fun c => c.isDigit)
    else
      true

/-! ## Data model

`Link` is the persisted URL document (UrlModel.js); dates are `Int`
millisecond timestamps and nullable fields are `Option`.  Fields the core
never reads (metadata counters, tags, title) are omitted. -/

/-- One persisted shortened URL. -/
structure Link where
  originalUrl : String
  shortCode : String
  customAlias : Option String
  userId : Option String
  createdAt : Int
  expiresAt : Option Int
  isActive : Bool
deriving Repr, DecidableEq

/-- Error taxonomy of the embedded operations.  Each constructor names one
`throw new Error(...)` site of the source (or a raw infrastructure error),
plus `genFuelExhausted`, an artifact standing for non-termination of the
unbounded `do ... while` generator loop. -/
inductive UcErr where
  /-- `'Short code is required'` in `ResolveUrl.execute` /
  `GetUrlAnalytics.execute`. -/
  | shortCodeRequired
  /-- `'URL not found'`. -/
  | notFound
  /-- `'This link has been deactivated'`. -/
  | deactivated
  /-- `'This link has expired'`. -/
  | expired
  /-- `'Invalid custom alias format. ...'`. -/
  | invalidAliasFormat
  /-- `'Custom alias already in use. ...'`. -/
  | aliasTaken
  /-- `'Original URL is required'` in `Url._validate`. -/
  | originalUrlRequired
  /-- `'Short code is required'` in `Url._validate`. -/
  | entityShortCodeRequired
  /-- `'Invalid URL format'` in `Url._validate`. -/
  | invalidUrlFormat
  /-- Raw MongoDB `E11000` duplicate-key rejection of the unique `shortCode`
  index, rethrown by `MongoUrlRepository.create`. -/
  | duplicateKey
  /-- A raw failure of the Redis cache client. -/
  | cacheFailure
  /-- A raw failure of the MongoDB record store. -/
  | storeFailure
  /-- Model artifact: fuel for the generator loop ran out. -/
  | genFuelExhausted
deriving Repr, DecidableEq

/-- The URL collection together with a fault flag: when `fails` is set every
repository call rejects, modelling an unreachable record store (every
`MongoUrlRepository` method catches, logs and rethrows). -/
structure Store where
  links : List Link
  fails : Bool
deriving Repr, DecidableEq

/-- `MongoUrlRepository.findByOriginalUrl`: `findOne({ originalUrl })`. -/
def Store.findByOriginalUrl (st : Store) (u : String) : Except UcErr (Option Link) :=
  if st.fails then .error .storeFailure
  else .ok (st.links.find? (fun l => l.originalUrl == u))

/-- `MongoUrlRepository.findByShortCode`: `findOne({ shortCode })`. -/
def Store.findByShortCode (st : Store) (c : String) : Except UcErr (Option Link) :=
  if st.fails then .error .storeFailure
  else .ok (st.links.find? (fun l => l.shortCode == c))

/-- `MongoUrlRepository.shortCodeExists`: `countDocuments({ shortCode }) > 0`. -/
def Store.shortCodeExists (st : Store) (c : String) : Except UcErr Bool :=
  if st.fails then .error .storeFailure
  else .ok (st.links.any (fun l => l.shortCode == c))

/-- `MongoUrlRepository.customAliasExists`:
`countDocuments({ customAlias }) > 0`. -/
def Store.customAliasExists (st : Store) (a : String) : Except UcErr Bool :=
  if st.fails then .error .storeFailure
  else .ok (st.links.any (fun l => l.customAlias == some a))

/-- `MongoUrlRepository.create`: `new UrlModel(data).save()`.  The schema
holds a unique index on `shortCode` (UrlModel.js line 21); a duplicate is
rejected with the raw `E11000` error. -/
def Store.create (st : Store) (l : Link) : Except UcErr (Link × Store) :=
  if st.fails then .error .storeFailure
  else if st.links.any (fun x => x.shortCode == l.shortCode) then .error .duplicateKey
  else .ok (l, { st with links := st.links ++ [l] })

/-! ## Cache -/

/-- The Redis cache holding values of type `α`, with injectable failure of
its `get` and `set` operations (the underlying client is external). -/
structure CacheOf (α : Type) where
  entries : List (String × α)
  getFails : Bool
  setFails : Bool
deriving Repr, DecidableEq

/-- The resolution cache: `url:<code> → originalUrl`. -/
abbrev Cache := CacheOf String

/-- `cacheRepository.get`: rejects when the client is failing. -/
def cacheGet {α : Type} (c : CacheOf α) (k : String) : Except UcErr (Option α) :=
  if c.getFails then .error .cacheFailure
  else .ok ((c.entries.find? (fun p => p.1 == k)).map (fun p => p.2))

/-- `cacheRepository.set`: overwrite the key, or reject when failing. -/
def cacheSet {α : Type} (c : CacheOf α) (k : String) (v : α) :
    Except UcErr (CacheOf α) :=
  if c.setFails then .error .cacheFailure
  else .ok { c with entries := (k, v) :: c.entries.filter (fun p => p.1 != k) }

/-- JavaScript truthiness of a nullable string: `null` and `''` are falsy. -/
def jsTruthyStr : Option String → Bool
  | none => false
  | some s => !s.data.isEmpty

/-! ## Code generation

`CreateShortUrl._generateUniqueShortCode` (CreateShortUrl.js lines 109-131).
`nanoid` is an external random generator; it is modelled by a function
`nanoid call len` giving the output of the call-numbered draw at requested
length `len`.  The JavaScript loop is an unbounded `do ... while`; fuel
makes the embedding total, with `genFuelExhausted` as the out-of-fuel
artifact. -/

/-- Result of the generator loop: the chosen code, the instance field
`this.urlLength` after the loop, the number of `nanoid` calls consumed, and
the trace of `(requested length, code)` existence queries. -/
structure GenResult where
  code : String
  finalLen : Nat
  calls : Nat
  queries : List (Nat × String)
deriving Repr, DecidableEq

/-- One-for-one embedding of the `do ... while (exists)` body: draw
`nanoid(this.urlLength)`, query `shortCodeExists`, bump `attempts`, and on
the fifth attempt grow the length by one and reset the counter before the
loop condition is tested. -/
def genLoop (st : Store) (nanoid : Nat → Nat → String) :
    Nat → Nat → Nat → Nat → List (Nat × String) → Except UcErr GenResult
  | 0, _, _, _, _ => .error .genFuelExhausted
  | fuel + 1, len, attempts, ctr, qs =>
    let code := nanoid ctr len
    match Store.shortCodeExists st code with
    | .error e => .error e
    | .ok ex =>
      let attempts' := attempts + 1
      let len' := if 5 ≤ attempts' then len + 1 else len
      let att' := if 5 ≤ attempts' then 0 else attempts'
      let qs' := qs ++ [(len, code)]
      if ex then genLoop st nanoid fuel len' att' (ctr + 1) qs'
      else .ok ⟨code, len', ctr + 1, qs'⟩

/-! ## CreateShortUrl use case -/

/-- The argument object of `CreateShortUrl.execute`. -/
structure CreateInput where
  originalUrl : String
  customAlias : Option String
  userId : Option String
  expiresAt : Option Int
deriving Repr, DecidableEq

/-- Result of a creation: the returned link plus the machine state after the
call (store, cache, the generator's `this.urlLength` field, and how many
`nanoid` draws were consumed). -/
structure CreateOutcome where
  link : Link
  store : Store
  cache : Cache
  urlLength : Nat
  nanoidCalls : Nat
deriving Repr, DecidableEq

/-- `Url._validate` (entity class): `originalUrl` and `shortCode` must be
truthy and `new URL(originalUrl)` must not throw. -/
def urlEntityValidate (originalUrl shortCode : String) : Except UcErr Unit :=
  if originalUrl.data.isEmpty then .error .originalUrlRequired
  else if shortCode.data.isEmpty then .error .entityShortCodeRequired
  else if !jsUrlParseOk originalUrl then .error .invalidUrlFormat
  else .ok ()

/-- `CreateShortUrl._cacheUrl`: write-through cache set whose failure is
caught and swallowed (CreateShortUrl.js lines 152-160).  `ResolveUrl._cacheUrl`
(ResolveUrl.js lines 97-104) has the same shape. -/
def cacheUrlSwallow (cache : Cache) (shortCode longUrl : String) : Cache :=
  match cacheSet cache ("url:" ++ shortCode) longUrl with
  | .error _ => cache
  | .ok c => c

/-- `CreateShortUrl.execute` (CreateShortUrl.js lines 33-82): normalize,
dedupe by original URL, pick the code (validated alias or generated), build
and validate the `Url` entity (no check of `expiresAt` anywhere), persist,
then best-effort cache. -/
def CreateShortUrl.execute (nanoid : Nat → Nat → String) (fuel : Nat)
    (store : Store) (cache : Cache) (urlLength : Nat) (now : Int)
    (input : CreateInput) : Except UcErr CreateOutcome :=
  let normalizedUrl := normalizeUrl input.originalUrl
  match Store.findByOriginalUrl store normalizedUrl with
  | .error e => .error e
  | .ok (some existingUrl) => .ok ⟨existingUrl, store, cache, urlLength, 0⟩
  | .ok none =>
    let picked : Except UcErr (String × Nat × Nat) :=
      if jsTruthyStr input.customAlias then
        let a := input.customAlias.getD ""
        if !isValidCustomAlias a then .error .invalidAliasFormat
        else match Store.customAliasExists store a with
          | .error e => .error e
          | .ok true => .error .aliasTaken
          | .ok false => .ok (a, urlLength, 0)
      else
        match genLoop store nanoid fuel urlLength 0 0 [] with
        | .error e => .error e
        | .ok r => .ok (r.code, r.finalLen, r.calls)
    match picked with
    | .error e => .error e
    | .ok (shortCode, urlLength', calls) =>
      match urlEntityValidate normalizedUrl shortCode with
      | .error e => .error e
      | .ok _ =>
        let url : Link :=
          ⟨normalizedUrl, shortCode, input.customAlias, input.userId, now,
            input.expiresAt, true⟩
        match Store.create store url with
        | .error e => .error e
        | .ok (createdUrl, store') =>
          let cache' := cacheUrlSwallow cache shortCode normalizedUrl
          .ok ⟨createdUrl, store', cache', urlLength', calls⟩

/-! ## ResolveUrl use case -/

/-- What a resolution returns: the original URL, the repository entity when
the store was consulted (`null` on a cache hit), and the cache afterwards. -/
structure ResolveOutcome where
  originalUrl : String
  urlEntity : Option Link
  cache : Cache
deriving Repr, DecidableEq

/-- `ResolveUrl._getFromCache` (ResolveUrl.js lines 81-88): a failing cache
read is caught and turned into `null`. -/
def ResolveUrl.fromCache (cache : Cache) (shortCode : String) : Option String :=
  match cacheGet cache ("url:" ++ shortCode) with
  | .error _ => none
  | .ok v => v

/-- The cache-miss block of `ResolveUrl.execute` (ResolveUrl.js lines
38-59): read the store, enforce presence, `isActive`, and expiry
(`new Date() > new Date(expiresAt)`), then repopulate the cache. -/
def ResolveUrl.missPath (store : Store) (cache : Cache) (now : Int)
    (shortCode : String) : Except UcErr ResolveOutcome :=
  match Store.findByShortCode store shortCode with
  | .error e => .error e
  | .ok none => .error .notFound
  | .ok (some urlEntity) =>
    if !urlEntity.isActive then .error .deactivated
    else if (match urlEntity.expiresAt with
              | some e => decide (e < now)
              | none => false) then .error .expired
    else
      let cache' := cacheUrlSwallow cache shortCode urlEntity.originalUrl
      .ok ⟨urlEntity.originalUrl, some urlEntity, cache'⟩

/-- `ResolveUrl.execute` (ResolveUrl.js lines 29-73): guard the short code,
try the cache (a falsy cached value counts as a miss), and otherwise run the
store path.  The fire-and-forget analytics enqueue does not affect the
result and is not modelled. -/
def ResolveUrl.execute (store : Store) (cache : Cache) (now : Int)
    (shortCode : String) : Except UcErr ResolveOutcome :=
  if shortCode.data.isEmpty then .error .shortCodeRequired
  else
    let cached := ResolveUrl.fromCache cache shortCode
    if jsTruthyStr cached then .ok ⟨cached.getD "", none, cache⟩
    else ResolveUrl.missPath store cache now shortCode

/-! ## Referrer analytics

`MongoAnalyticsRepository.getReferrerStats` and the `referrers` arm of
`GetUrlAnalytics.execute`.  An Analytics document's `referrer` is nullable
(`Option String`, `none` for `null`/missing); fields the referrer pipeline
never touches (ip, user agent, device, location) are omitted. -/

/-- One stored click (AnalyticsModel document restricted to the fields the
referrer aggregation reads). -/
structure ClickEvent where
  shortCode : String
  referrer : Option String
  timestamp : Int
deriving Repr, DecidableEq

/-- One row of the referrer aggregation output. -/
structure ReferrerRow where
  referrer : String
  count : Nat
deriving Repr, DecidableEq

/-- Keys not yet seen, kept in order of first appearance. -/
def distinctKeysAux (seen : List (Option String)) :
    List (Option String) → List (Option String)
  | [] => []
  | x :: xs =>
    if seen.contains x then distinctKeysAux seen xs
    else x :: distinctKeysAux (x :: seen) xs

/-- Distinct values in order of first appearance: the grouping keys of the
`$group` stage (MongoDB leaves group order unspecified; the embedding fixes
first-appearance order, which no settled property depends on). -/
def distinctKeys (l : List (Option String)) : List (Option String) :=
  distinctKeysAux [] l

/-- The `$match` + `$group` stages: one `(raw referrer value, count)` pair
per distinct raw value among the code's events.  `null` and missing
referrers share the key `none`; the empty string is its own key. -/
def groupRows (events : List ClickEvent) (code : String) :
    List (Option String × Nat) :=
  let matched := events.filter (fun e => e.shortCode == code)
  (distinctKeys (matched.map (fun e => e.referrer))).map
    (fun k => (k, (matched.filter (fun e => e.referrer == k)).length))

/-- The `$project` stage: `referrer: { $ifNull: ['$_id', 'Direct/None'] }`. -/
def projectRow : Option String × Nat → ReferrerRow
  | (none, n) => ⟨"Direct/None", n⟩
  | (some r, n) => ⟨r, n⟩

/-- Insert a row into a list already sorted descending by count, after every
row of greater-or-equal count. -/
def insertDesc (x : ReferrerRow) : List ReferrerRow → List ReferrerRow
  | [] => [x]
  | y :: ys => if x.count ≤ y.count then y :: insertDesc x ys else x :: y :: ys

/-- The `$sort: { count: -1 }` stage, as a stable descending sort. -/
def sortDesc : List ReferrerRow → List ReferrerRow
  | [] => []
  | x :: xs => insertDesc x (sortDesc xs)

/-- The post-pipeline JavaScript map:
`referrer: item.referrer || 'Direct/None'` (falsy label fallback). -/
def jsFallbackRow (r : ReferrerRow) : ReferrerRow :=
  if r.referrer.data.isEmpty then ⟨"Direct/None", r.count⟩ else r

/-- `MongoAnalyticsRepository.getReferrerStats` (lines 596-623 of the
repository file): aggregate `[$match, $group, $project, $sort]`, then map
the falsy-label fallback over the rows. -/
def getReferrerStats (events : List ClickEvent) (code : String) :
    List ReferrerRow :=
  (sortDesc ((groupRows events code).map projectRow)).map jsFallbackRow

/-- The analytics memoization cache (`analytics:<code>:<view>:<hash>` keys,
values are aggregation results). -/
abbrev AnalyticsCache := CacheOf (List ReferrerRow)

/-- The cache key `GetUrlAnalytics._createCacheKey` builds for the
`referrers` view with default-filled options. -/
def referrersCacheKey (shortCode : String) : String :=
  "analytics:" ++ shortCode ++ ":referrers:defaults"

/-- The `referrers` path of `GetUrlAnalytics.execute`: guard the short code,
require the link to exist, try the memo cache (failures swallowed), else run
`getReferrerStats` and cache the rows (failures swallowed). -/
def GetUrlAnalytics.executeReferrers (store : Store) (events : List ClickEvent)
    (cache : AnalyticsCache) (shortCode : String) :
    Except UcErr (List ReferrerRow × AnalyticsCache) :=
  if shortCode.data.isEmpty then .error .shortCodeRequired
  else match Store.shortCodeExists store shortCode with
    | .error e => .error e
    | .ok false => .error .notFound
    | .ok true =>
      let cached : Option (List ReferrerRow) :=
        match cacheGet cache (referrersCacheKey shortCode) with
        | .error _ => none
        | .ok v => v
      match cached with
      | some rows => .ok (rows, cache)
      | none =>
        let rows := getReferrerStats events shortCode
        let cache' :=
          match cacheSet cache (referrersCacheKey shortCode) rows with
          | .error _ => cache
          | .ok c => c
        .ok (rows, cache')

/-! ## ShortenerService facade

shortenerService.js: the constructor stores the use-case objects in the
instance fields `createShortUrl` and `resolveUrl`; the class methods live on
the prototype.  JavaScript property lookup takes an own property before a
prototype property, and calling a non-function value throws a `TypeError`.
The model lists the constructor-assigned own properties and the prototype
method names verbatim from the class body. -/

/-- A property value of the service object. -/
inductive JsProp where
  /-- `this.urlRepository = new MongoUrlRepository()`. -/
  | repoObject
  /-- `this.cacheRepository = new RedisCacheRepository()`. -/
  | cacheObject
  /-- `this.createShortUrl = new CreateShortUrl({...})`. -/
  | createUseCase
  /-- `this.resolveUrl = new ResolveUrl({...})`. -/
  | resolveUseCase
  /-- A method of `ShortenerService.prototype`. -/
  | protoMethod (name : String)
deriving Repr, DecidableEq

/-- Only functions are callable; the use-case instances and repositories are
plain objects. -/
def JsProp.isCallable : JsProp → Bool
  | .protoMethod _ => true
  | _ => false

/-- Own properties assigned by `ShortenerService`'s constructor
(shortenerService.js lines 14-28), in assignment order. -/
def ShortenerService.ownProps : List (String × JsProp) :=
  [("urlRepository", .repoObject), ("cacheRepository", .cacheObject),
   ("createShortUrl", .createUseCase), ("resolveUrl", .resolveUseCase)]

/-- The prototype methods of `ShortenerService` (the class body's method
names). -/
def ShortenerService.protoMethods : List String :=
  ["shortenUrl", "resolveUrl", "getUrl", "updateUrl", "deleteUrl",
   "deactivateUrl", "activateUrl", "getAllUrls", "getUserUrls",
   "isAliasAvailable", "formatUrlForResponse"]

/-- JavaScript property lookup on the exported singleton: own property
first, then the prototype chain. -/
def ShortenerService.lookupProp (name : String) : Option JsProp :=
  match ShortenerService.ownProps.find? (fun p => p.1 == name) with
  | some p => some p.2
  | none =>
    if ShortenerService.protoMethods.contains name then
      some (.protoMethod name)
    else none

/-- Result of `shortenerService.<name>(args)`. -/
inductive CallResult where
  /-- `TypeError: shortenerService.<name> is not a function` (or the
  property is undefined). -/
  | typeError
  /-- The prototype method `m` actually runs on the argument list. -/
  | invoked (m : String) (args : List String)
deriving Repr, DecidableEq

/-- Calling a property of the service: resolves the name, then invokes it
when and only when the value is callable. -/
def ShortenerService.invoke (name : String) (args : List String) : CallResult :=
  match ShortenerService.lookupProp name with
  | some p =>
    match p with
    | .protoMethod m => .invoked m args
    | _ => .typeError
  | none => .typeError

/-! ## Shared lemmas -/

/-- `String.append` concatenates the underlying character lists. -/
theorem strData_append (s t : String) : (s ++ t).data = s.data ++ t.data := by
  cases s; cases t; rfl

/-- `slice(0, -1)` drops the final character of the underlying list. -/
theorem strData_dropLast (s : String) : (jsDropLastChar s).data = s.data.dropLast :=
  rfl

/-- A string ending in a slash has a nonempty character list. -/
theorem endsWithSlash_ne_nil {s : String} (h : endsWithSlash s = true) :
    s.data ≠ [] := by
  intro hnil
  simp [endsWithSlash, hnil] at h

/-- Prepending never yields back the same string: without a protocol prefix,
normalization grows the string by at least seven characters. -/
theorem normalizeUrl_ne_of_no_protocol {s : String} (h : hasProtocol s = false) :
    normalizeUrl s ≠ s := by
  intro heq
  have hlen := congrArg (fun t => t.data.length) heq
  simp only [normalizeUrl, withProtocol, h, Bool.false_eq_true, if_false] at hlen
  by_cases hs : endsWithSlash ("https://" ++ s) = true
  · rw [if_pos hs] at hlen
    simp only [strData_dropLast, strData_append, List.length_dropLast,
      List.length_append, List.length_cons, List.length_nil] at hlen
    omega
  · rw [if_neg hs] at hlen
    simp only [strData_append, List.length_append, List.length_cons,
      List.length_nil] at hlen
    omega

/-- Stripping the trailing slash shortens the string, so a slash-terminated
string is never a fixed point of normalization. -/
theorem normalizeUrl_ne_of_trailing {s : String} (h1 : hasProtocol s = true)
    (h2 : endsWithSlash s = true) : normalizeUrl s ≠ s := by
  intro heq
  have hne : s.data ≠ [] := endsWithSlash_ne_nil h2
  have hlen := congrArg (fun t => t.data.length) heq
  simp only [normalizeUrl, withProtocol, h1, if_true, h2, strData_dropLast,
    List.length_dropLast] at hlen
  have : 0 < s.data.length := List.length_pos.mpr hne
  omega

/-- A protocol-prefixed string without a trailing slash is left unchanged. -/
theorem normalizeUrl_fixed {s : String} (h1 : hasProtocol s = true)
    (h2 : endsWithSlash s = false) : normalizeUrl s = s := by
  simp [normalizeUrl, withProtocol, h1, h2]

/-! ## Claim C3 -/

/-- C3: in the `ShortenerService` facade the constructor assigns the
`ResolveUrl` use-case object to the instance field `resolveUrl`, which
shadows the prototype method of the same name; the shadowed method does
exist on the prototype, yet every call
`shortenerService.resolveUrl(shortCode, requestData)` resolves the property
to the non-callable use-case object and fails with a `TypeError`, never
returning an original URL. -/
theorem c3_resolveUrl_facade_shadowed :
    ShortenerService.lookupProp "resolveUrl" = some JsProp.resolveUseCase ∧
    ShortenerService.protoMethods.contains "resolveUrl" = true ∧
    ∀ args : List String,
      ShortenerService.invoke "resolveUrl" args = CallResult.typeError :=
  ⟨by decide, by decide, fun _ => rfl⟩

/-! ## Claim C6 -/

/-- C6 counterexample: `normalize` is not idempotent.  On
`https://example.com//` one application strips a single slash and leaves
`https://example.com/`, which a second application shortens again. -/
theorem c6_normalize_not_idempotent_cex :
    normalizeUrl (normalizeUrl "https://example.com//") ≠
      normalizeUrl "https://example.com//" := by decide

/-- C6 (amended): each application of `normalize` strips exactly one
trailing slash (after the protocol step), and `normalize` is idempotent
precisely on those inputs whose normalized form still starts with
`http://` or `https://` and does not end in `/`; inputs ending in `//`
(and the bare `http://` / `https://`) escape idempotence. -/
theorem c6_normalize_characterization (x : String) :
    (normalizeUrl (normalizeUrl x) = normalizeUrl x ↔
      hasProtocol (normalizeUrl x) = true ∧
        endsWithSlash (normalizeUrl x) = false) ∧
    (endsWithSlash x = true →
      endsWithSlash (withProtocol x) = true ∧
        normalizeUrl x = jsDropLastChar (withProtocol x)) := by
  constructor
  · constructor
    · intro heq
      by_cases hp : hasProtocol (normalizeUrl x) = true
      · by_cases hs : endsWithSlash (normalizeUrl x) = true
        · exact absurd heq (normalizeUrl_ne_of_trailing hp hs)
        · exact ⟨hp, by simpa using hs⟩
      · exact absurd heq (normalizeUrl_ne_of_no_protocol (by simpa using hp))
    · intro ⟨h1, h2⟩
      exact normalizeUrl_fixed h1 h2
  · intro hx
    have hxne : x.data ≠ [] := endsWithSlash_ne_nil hx
    have hslash : endsWithSlash (withProtocol x) = true := by
      unfold withProtocol
      by_cases hp : hasProtocol x = true
      · rw [if_pos hp]; exact hx
      · rw [if_neg hp]
        unfold endsWithSlash at hx ⊢
        rw [strData_append, List.getLast?_append_of_ne_nil _ hxne]
        exact hx
    refine ⟨hslash, ?_⟩
    unfold normalizeUrl
    simp only [hslash, if_true]

/-- Witness for C6's amended claim: idempotence holds at
`https://a.com`, and on the slash-terminated `a/` exactly the final slash is
stripped. -/
theorem c6_normalize_characterization_witness :
    normalizeUrl (normalizeUrl "https://a.com") = normalizeUrl "https://a.com" ∧
    normalizeUrl "a/" = jsDropLastChar (withProtocol "a/") :=
  ⟨(c6_normalize_characterization "https://a.com").1.mpr (by decide),
   ((c6_normalize_characterization "a/").2 (by decide)).2⟩

/-! ## Claim C1 -/

/-- A resolution whose short code is truthy and whose cache read comes back
falsy runs the store path. -/
theorem resolve_execute_miss {store : Store} {cache : Cache} {now : Int}
    {code : String} (hc : code.data.isEmpty = false)
    (hmiss : jsTruthyStr (ResolveUrl.fromCache cache code) = false) :
    ResolveUrl.execute store cache now code =
      ResolveUrl.missPath store cache now code := by
  unfold ResolveUrl.execute
  simp only [hc, Bool.false_eq_true, if_false, hmiss]

/-- C1 counterexample: the expiry comparison is strict.  With
`expiresAt = now = 1000` the claim demands an `Expired` failure, but the
code (`new Date() > new Date(expiresAt)`) still resolves the link and
returns its original URL. -/
theorem c1_expiry_boundary_cex :
    (1000 : Int) ≤ 1000 ∧
    ResolveUrl.execute
        ⟨[⟨"https://example.com", "abc", none, none, 0, some 1000, true⟩], false⟩
        ⟨[], false, false⟩ 1000 "abc" =
      .ok ⟨"https://example.com",
        some ⟨"https://example.com", "abc", none, none, 0, some 1000, true⟩,
        ⟨[("url:abc", "https://example.com")], false, false⟩⟩ :=
  ⟨le_refl _, rfl⟩

/-- C1 (amended): on a cache miss (falsy cache read) with a truthy code,
resolution fails `NotFound` when the store has no link with that code,
`Deactivated` when `isActive` is false, `Expired` when an `expiresAt` is
present and strictly less than now (at `expiresAt = now` the link still
resolves), and otherwise repopulates the cache under `url:<code>` and
returns the link's `originalUrl`. -/
theorem c1_resolve_miss_cases (store : Store) (cache : Cache) (now : Int)
    (code : String) (hc : code.data.isEmpty = false)
    (hmiss : jsTruthyStr (ResolveUrl.fromCache cache code) = false) :
    (Store.findByShortCode store code = .ok none →
      ResolveUrl.execute store cache now code = .error .notFound) ∧
    (∀ l, Store.findByShortCode store code = .ok (some l) →
      l.isActive = false →
      ResolveUrl.execute store cache now code = .error .deactivated) ∧
    (∀ l e, Store.findByShortCode store code = .ok (some l) →
      l.isActive = true → l.expiresAt = some e → e < now →
      ResolveUrl.execute store cache now code = .error .expired) ∧
    (∀ l, Store.findByShortCode store code = .ok (some l) →
      l.isActive = true →
      (match l.expiresAt with
        | some e => decide (e < now)
        | none => false) = false →
      ResolveUrl.execute store cache now code =
        .ok ⟨l.originalUrl, some l, cacheUrlSwallow cache code l.originalUrl⟩ ∧
      (cache.setFails = false →
        (cacheUrlSwallow cache code l.originalUrl).entries.find?
            (fun p => p.1 == "url:" ++ code) =
          some ("url:" ++ code, l.originalUrl))) := by
  rw [resolve_execute_miss hc hmiss]
  refine ⟨?_, ?_, ?_, ?_⟩
  · intro hfind
    simp only [ResolveUrl.missPath, hfind]
  · intro l hfind hact
    simp only [ResolveUrl.missPath, hfind, hact, Bool.not_false, if_true]
  · intro l e hfind hact hexp hlt
    simp only [ResolveUrl.missPath, hfind, hact, Bool.not_true,
      Bool.false_eq_true, if_false, hexp, decide_eq_true hlt, if_true]
  · intro l hfind hact hexp
    constructor
    · simp only [ResolveUrl.missPath, hfind, hact, Bool.not_true,
        Bool.false_eq_true, if_false, hexp]
    · intro hsf
      simp only [cacheUrlSwallow, cacheSet, hsf, Bool.false_eq_true, if_false,
        List.find?]
      simp

/-- Witness for C1's amended claim: an unknown code on an empty store fails
`NotFound`. -/
theorem c1_resolve_miss_cases_witness :
    ResolveUrl.execute ⟨[], false⟩ ⟨[], false, false⟩ 0 "abc" =
      .error .notFound :=
  (c1_resolve_miss_cases ⟨[], false⟩ ⟨[], false, false⟩ 0 "abc"
    (by decide) (by decide)).1 rfl

/-! ## Claim C2 -/

/-- When the dedupe lookup finds a link for the normalized URL, creation
returns it with the store, the cache and the generator length untouched and
zero `nanoid` draws. -/
theorem create_dedupe (nanoid : Nat → Nat → String) (fuel : Nat)
    (store : Store) (cache : Cache) (len : Nat) (now : Int)
    (input : CreateInput) (link : Link)
    (hfind : Store.findByOriginalUrl store (normalizeUrl input.originalUrl) =
      .ok (some link)) :
    CreateShortUrl.execute nanoid fuel store cache len now input =
      .ok ⟨link, store, cache, len, 0⟩ := by
  unfold CreateShortUrl.execute
  dsimp only
  rw [hfind]

/-- Any successful creation on a store without the normalized URL produces a
link carrying that URL and appends exactly it to the store. -/
theorem create_fresh_shape {nanoid : Nat → Nat → String} {fuel : Nat}
    {store : Store} {cache : Cache} {len : Nat} {now : Int}
    {input : CreateInput} {o : CreateOutcome}
    (hfresh : Store.findByOriginalUrl store (normalizeUrl input.originalUrl) =
      .ok none)
    (hok : CreateShortUrl.execute nanoid fuel store cache len now input = .ok o) :
    o.link.originalUrl = normalizeUrl input.originalUrl ∧
    o.store = ⟨store.links ++ [o.link], store.fails⟩ := by
  unfold CreateShortUrl.execute at hok
  dsimp only at hok
  rw [hfresh] at hok
  dsimp only at hok
  split at hok
  · simp at hok
  · split at hok
    · simp at hok
    · split at hok
      · simp at hok
      · rename_i hcr
        unfold Store.create at hcr
        split at hcr
        · simp at hcr
        · split at hcr
          · simp at hcr
          · rw [Except.ok.injEq, Prod.mk.injEq] at hcr
            obtain ⟨hc, hst⟩ := hcr
            rw [Except.ok.injEq] at hok
            subst hok
            subst hc
            subst hst
            exact ⟨rfl, rfl⟩

/-- A repository lookup only answers when the store is up. -/
theorem findByOriginalUrl_ok_fails {store : Store} {u : String}
    {r : Option Link} (h : Store.findByOriginalUrl store u = .ok r) :
    store.fails = false := by
  unfold Store.findByOriginalUrl at h
  by_cases hf : store.fails = true
  · rw [if_pos hf] at h; simp at h
  · simpa using hf

/-- After appending a link for `u` to a store that had none, the lookup by
original URL finds exactly that link. -/
theorem findByOriginalUrl_after_append {store : Store} {u : String} {l : Link}
    (hfresh : Store.findByOriginalUrl store u = .ok none)
    (hl : l.originalUrl = u) :
    Store.findByOriginalUrl ⟨store.links ++ [l], store.fails⟩ u =
      .ok (some l) := by
  have hf : store.fails = false := findByOriginalUrl_ok_fails hfresh
  unfold Store.findByOriginalUrl at hfresh ⊢
  rw [hf] at hfresh ⊢
  simp only [Bool.false_eq_true, if_false, Except.ok.injEq] at hfresh ⊢
  rw [List.find?_append, hfresh]
  simp [List.find?, hl]

/-- C2: creation is idempotent per normalized URL.  A dedupe hit returns the
existing link with no new persist, no cache write, no generator draw and no
length change, whatever `customAlias` or `expiresAt` the call carries; and
after a fresh creation, a second creation with the same normalized
`originalUrl` (under any alias/expiry options) returns the very link of the
first call — same `code` — leaving the store with exactly one more link than
before the first call. -/
theorem c2_create_idempotent_per_url
    (nanoid₁ nanoid₂ : Nat → Nat → String) (fuel₁ fuel₂ : Nat)
    (store : Store) (cache : Cache) (len : Nat) (now₁ now₂ : Int)
    (input₁ input₂ : CreateInput) (o : CreateOutcome)
    (hsame : normalizeUrl input₂.originalUrl = normalizeUrl input₁.originalUrl) :
    (∀ link, Store.findByOriginalUrl store (normalizeUrl input₁.originalUrl) =
        .ok (some link) →
      CreateShortUrl.execute nanoid₁ fuel₁ store cache len now₁ input₁ =
        .ok ⟨link, store, cache, len, 0⟩) ∧
    (Store.findByOriginalUrl store (normalizeUrl input₁.originalUrl) = .ok none →
      CreateShortUrl.execute nanoid₁ fuel₁ store cache len now₁ input₁ = .ok o →
      CreateShortUrl.execute nanoid₂ fuel₂ o.store o.cache o.urlLength now₂
          input₂ =
        .ok ⟨o.link, o.store, o.cache, o.urlLength, 0⟩ ∧
      o.store.links.length = store.links.length + 1) := by
  constructor
  · intro link hfind
    exact create_dedupe _ _ _ _ _ _ _ _ hfind
  · intro hfresh hok
    obtain ⟨hurl, hst⟩ := create_fresh_shape hfresh hok
    have hfind2 : Store.findByOriginalUrl o.store
        (normalizeUrl input₂.originalUrl) = .ok (some o.link) := by
      rw [hsame, hst]
      exact findByOriginalUrl_after_append hfresh hurl
    refine ⟨create_dedupe _ _ _ _ _ _ _ _ hfind2, ?_⟩
    rw [hst]
    simp

/-- Witness for C2: create `example.com/` on an empty store, then create it
again with an alias and an expiry requested — the second call returns the
first link unchanged and the store still holds exactly one link. -/
theorem c2_create_idempotent_per_url_witness :
    CreateShortUrl.execute (fun _ _ => "q1w2e3r") 1
        ⟨[⟨"https://example.com", "q1w2e3r", none, none, 0, none, true⟩], false⟩
        ⟨[("url:q1w2e3r", "https://example.com")], false, false⟩ 7 9
        ⟨"example.com/", some "zzz", none, some 99⟩ =
      .ok ⟨⟨"https://example.com", "q1w2e3r", none, none, 0, none, true⟩,
        ⟨[⟨"https://example.com", "q1w2e3r", none, none, 0, none, true⟩], false⟩,
        ⟨[("url:q1w2e3r", "https://example.com")], false, false⟩, 7, 0⟩ ∧
    ([⟨"https://example.com", "q1w2e3r", none, none, 0, none, true⟩] :
        List Link).length =
      ([] : List Link).length + 1 :=
  (c2_create_idempotent_per_url (fun _ _ => "q1w2e3r") (fun _ _ => "q1w2e3r")
    1 1 ⟨[], false⟩ ⟨[], false, false⟩ 7 0 9
    ⟨"example.com/", none, none, none⟩
    ⟨"example.com/", some "zzz", none, some 99⟩
    ⟨⟨"https://example.com", "q1w2e3r", none, none, 0, none, true⟩,
      ⟨[⟨"https://example.com", "q1w2e3r", none, none, 0, none, true⟩], false⟩,
      ⟨[("url:q1w2e3r", "https://example.com")], false, false⟩, 7, 1⟩
    rfl).2 rfl rfl

/-! ## Claim C4 -/

/-- C4 counterexample: `CreateShortUrl.execute` holds no expiration check.
With `expiresAt = -5` in the past of `now = 0` the creation still succeeds
and persists the link, where the claim demands an `ExpirationInPast`
failure with nothing persisted. -/
theorem c4_past_expiry_persisted_cex :
    (-5 : Int) ≤ 0 ∧
    CreateShortUrl.execute (fun _ _ => "q1w2e3r") 1 ⟨[], false⟩
        ⟨[], false, false⟩ 7 0 ⟨"https://a.com", none, none, some (-5)⟩ =
      .ok ⟨⟨"https://a.com", "q1w2e3r", none, none, 0, some (-5), true⟩,
        ⟨[⟨"https://a.com", "q1w2e3r", none, none, 0, some (-5), true⟩], false⟩,
        ⟨[("url:q1w2e3r", "https://a.com")], false, false⟩, 7, 1⟩ :=
  ⟨by decide, rfl⟩

/-- C4 (amended): creation never validates `expiresAt` — no
`ExpirationInPast` failure exists in the use case (the future-date check
lives only in the out-of-scope HTTP request validator).  On a store without
the normalized URL, the outcome with any supplied `expiresAt` is exactly the
outcome without one, with the date merely copied into the persisted link. -/
theorem c4_create_ignores_expiry (nanoid : Nat → Nat → String) (fuel : Nat)
    (store : Store) (cache : Cache) (len : Nat) (now : Int)
    (input : CreateInput) (e : Int)
    (hfresh : Store.findByOriginalUrl store (normalizeUrl input.originalUrl) =
      .ok none) :
    CreateShortUrl.execute nanoid fuel store cache len now
        { input with expiresAt := some e } =
      (CreateShortUrl.execute nanoid fuel store cache len now
          { input with expiresAt := none }).map
        (fun o =>
          ⟨{ o.link with expiresAt := some e },
            ⟨store.links ++ [{ o.link with expiresAt := some e }], store.fails⟩,
            o.cache, o.urlLength, o.nanoidCalls⟩) := by
  unfold CreateShortUrl.execute
  dsimp only
  rw [hfresh]
  dsimp only
  split
  · rfl
  · split
    · rfl
    · rename_i p sc len2 calls hpick x u hval
      unfold Store.create
      dsimp only
      by_cases hf : store.fails = true
      · rw [if_pos hf, if_pos hf]
        rfl
      · rw [if_neg hf, if_neg hf]
        by_cases hd : (store.links.any fun x => x.shortCode == sc) = true
        · rw [if_pos hd, if_pos hd]
          rfl
        · rw [if_neg hd, if_neg hd]
          rfl

/-- Witness for C4's amended claim at a concrete creation with a past
expiry. -/
theorem c4_create_ignores_expiry_witness :
    CreateShortUrl.execute (fun _ _ => "q1w2e3r") 1 ⟨[], false⟩
        ⟨[], false, false⟩ 7 0
        { CreateInput.mk "https://a.com" none none none with
            expiresAt := some (-5) } =
      (CreateShortUrl.execute (fun _ _ => "q1w2e3r") 1 ⟨[], false⟩
          ⟨[], false, false⟩ 7 0
          { CreateInput.mk "https://a.com" none none none with
              expiresAt := none }).map
        (fun o =>
          ⟨{ o.link with expiresAt := some (-5) },
            ⟨([] : List Link) ++ [{ o.link with expiresAt := some (-5) }],
              false⟩,
            o.cache, o.urlLength, o.nanoidCalls⟩) :=
  c4_create_ignores_expiry (fun _ _ => "q1w2e3r") 1 ⟨[], false⟩
    ⟨[], false, false⟩ 7 0 (CreateInput.mk "https://a.com" none none none)
    (-5) rfl

/-! ## Claim C5 -/

/-- C5 counterexample: a store uniqueness conflict on `code` surfaces raw.
The store already holds a link whose `shortCode` is `abc` (with no
`customAlias`), so the alias-availability check passes for the custom alias
`abc`, and the persist then hits the unique `shortCode` index: creation
fails with the raw duplicate-key error — no retry, no `CreationConflict`. -/
theorem c5_conflict_raw_cex :
    CreateShortUrl.execute (fun _ _ => "q1w2e3r") 9
        ⟨[⟨"https://a.com", "abc", none, none, 0, none, true⟩], false⟩
        ⟨[], false, false⟩ 7 0 ⟨"https://b.com", some "abc", none, none⟩ =
      .error .duplicateKey := rfl

/-- C5 (amended): when the persist step is reached with a code that
conflicts with the store's unique `shortCode` index, `createLink` fails at
once with the store's raw duplicate-key error; the orchestrator performs no
retry of code selection and owns no `CreationConflict` mapping
(`MongoUrlRepository.create` rethrows and `CreateShortUrl.execute` has no
handler around the persist). -/
theorem c5_conflict_propagates_raw (nanoid : Nat → Nat → String) (fuel : Nat)
    (store : Store) (cache : Cache) (len : Nat) (now : Int)
    (input : CreateInput) (a : String)
    (hfresh : Store.findByOriginalUrl store (normalizeUrl input.originalUrl) =
      .ok none)
    (halias : input.customAlias = some a)
    (htruthy : jsTruthyStr input.customAlias = true)
    (hvalid : isValidCustomAlias a = true)
    (hfree : Store.customAliasExists store a = .ok false)
    (hval : urlEntityValidate (normalizeUrl input.originalUrl) a = .ok ())
    (hdup : store.links.any (fun x => x.shortCode == a) = true) :
    CreateShortUrl.execute nanoid fuel store cache len now input =
      .error .duplicateKey := by
  have hf : store.fails = false := findByOriginalUrl_ok_fails hfresh
  unfold CreateShortUrl.execute
  dsimp only
  rw [hfresh]
  dsimp only
  rw [htruthy]
  simp only [if_true, halias, Option.getD_some]
  simp only [hvalid, Bool.not_true, Bool.false_eq_true, if_false]
  simp only [hfree]
  simp only [hval]
  unfold Store.create
  simp only [hf, Bool.false_eq_true, if_false, hdup, if_true]

/-- Witness for C5's amended claim on a second concrete conflict. -/
theorem c5_conflict_propagates_raw_witness :
    CreateShortUrl.execute (fun _ _ => "zzzzzzz") 3
        ⟨[⟨"https://x.com", "mylink", none, none, 0, none, true⟩], false⟩
        ⟨[], false, false⟩ 7 0 ⟨"https://y.com", some "mylink", none, none⟩ =
      .error .duplicateKey :=
  c5_conflict_propagates_raw (fun _ _ => "zzzzzzz") 3
    ⟨[⟨"https://x.com", "mylink", none, none, 0, none, true⟩], false⟩
    ⟨[], false, false⟩ 7 0 ⟨"https://y.com", some "mylink", none, none⟩
    "mylink" rfl rfl (by decide) (by decide) rfl rfl (by decide)


/-! ## Claim C7 -/

/-- A protocol-prefixed string has at least seven characters. -/
theorem hasProtocol_length {u : String} (h : hasProtocol u = true) :
    7 ≤ u.data.length := by
  unfold hasProtocol at h
  rcases Bool.or_eq_true_iff.mp h with h | h
  · have hp := List.isPrefixOf_iff_prefix.mp h
    have := hp.length_le
    simpa using this
  · have hp := List.isPrefixOf_iff_prefix.mp h
    have := hp.length_le
    simp at this
    have hud : u.length = u.data.length := rfl
    omega

/-- Normalization always outputs at least six characters. -/
theorem normalizeUrl_length (u : String) : 6 ≤ (normalizeUrl u).data.length := by
  unfold normalizeUrl withProtocol
  dsimp only
  by_cases hp : hasProtocol u = true
  · rw [if_pos hp]
    have h7 := hasProtocol_length hp
    by_cases hs : endsWithSlash u = true
    · rw [if_pos hs]
      rw [strData_dropLast, List.length_dropLast]
      omega
    · rw [if_neg hs]
      omega
  · rw [if_neg hp]
    by_cases hs : endsWithSlash ("https://" ++ u) = true
    · rw [if_pos hs]
      rw [strData_dropLast, strData_append, List.length_dropLast,
        List.length_append]
      simp
      omega
    · rw [if_neg hs]
      rw [strData_append, List.length_append]
      simp
      omega

/-- The normalized URL is never the empty (falsy) string. -/
theorem normalizeUrl_data_isEmpty (u : String) :
    (normalizeUrl u).data.isEmpty = false := by
  have h := normalizeUrl_length u
  cases hgoal : (normalizeUrl u).data with
  | nil => rw [hgoal] at h; simp at h
  | cons c cs => simp

/-- C7 (amended): with no alias, a fresh URL and a successful generator
draw, creation fails with `InvalidUrl` (`Invalid URL format`) exactly when
the normalized string — `https://` prepended when no `http(s)://` prefix is
present, one trailing slash stripped — fails the URL parse.  Since the
normalized string always starts with the prepended prefix, a string bearing
another scheme is not rejected for its scheme: it is shortened whenever the
combined string parses. -/
theorem c7_invalid_url_iff_parse_failure (nanoid : Nat → Nat → String)
    (fuel : Nat) (store : Store) (cache : Cache) (len : Nat) (now : Int)
    (u : String) (r : GenResult)
    (hfresh : Store.findByOriginalUrl store (normalizeUrl u) = .ok none)
    (hgen : genLoop store nanoid fuel len 0 0 [] = .ok r)
    (hcode : r.code.data.isEmpty = false) :
    (CreateShortUrl.execute nanoid fuel store cache len now
        ⟨u, none, none, none⟩ = .error .invalidUrlFormat) ↔
      jsUrlParseOk (normalizeUrl u) = false := by
  have hne := normalizeUrl_data_isEmpty u
  unfold CreateShortUrl.execute
  dsimp only
  rw [hfresh]
  dsimp only
  simp only [jsTruthyStr, Bool.false_eq_true, if_false]
  rw [hgen]
  dsimp only
  unfold urlEntityValidate
  rw [hne, hcode]
  simp only [Bool.false_eq_true, if_false]
  by_cases hp : jsUrlParseOk (normalizeUrl u) = true
  · rw [hp]
    simp only [Bool.not_true, Bool.false_eq_true, if_false]
    constructor
    · intro hexec
      exfalso
      split at hexec
      · rename_i e heq
        unfold Store.create at heq
        split at heq
        · rw [Except.error.injEq] at heq
          subst heq
          simp at hexec
        · split at heq
          · rw [Except.error.injEq] at heq
            subst heq
            simp at hexec
          · simp at heq
      · simp at hexec
    · intro hfalse
      simp at hfalse
  · have hp2 : jsUrlParseOk (normalizeUrl u) = false := by simpa using hp
    rw [hp2]
    simp only [Bool.not_false, if_true]

/-- C7 counterexample: `ftp://example.com` bears a non-http scheme, yet
creation does not fail with `InvalidUrl`: the normalizer prepends
`https://`, the combined string parses, and the link is shortened and
persisted. -/
theorem c7_foreign_scheme_shortened_cex :
    hasProtocol "ftp://example.com" = false ∧
    CreateShortUrl.execute (fun _ _ => "q1w2e3r") 1 ⟨[], false⟩
        ⟨[], false, false⟩ 7 0 ⟨"ftp://example.com", none, none, none⟩ =
      .ok ⟨⟨"https://ftp://example.com", "q1w2e3r", none, none, 0, none, true⟩,
        ⟨[⟨"https://ftp://example.com", "q1w2e3r", none, none, 0, none,
          true⟩], false⟩,
        ⟨[("url:q1w2e3r", "https://ftp://example.com")], false, false⟩, 7, 1⟩ :=
  ⟨by decide, rfl⟩

/-- Witness for C7's amended claim: `https://` normalizes to the
unparseable `https:/`, so creation fails with the invalid-format error. -/
theorem c7_invalid_url_iff_parse_failure_witness :
    CreateShortUrl.execute (fun _ _ => "q1w2e3r") 1 ⟨[], false⟩
        ⟨[], false, false⟩ 7 0 ⟨"https://", none, none, none⟩ =
      .error .invalidUrlFormat :=
  (c7_invalid_url_iff_parse_failure (fun _ _ => "q1w2e3r") 1 ⟨[], false⟩
    ⟨[], false, false⟩ 7 0 "https://" ⟨"q1w2e3r", 7, 1, [(7, "q1w2e3r")]⟩
    rfl rfl rfl).mpr rfl

/-! ## Claim C8 -/

/-- C8: when the existence check reports collisions for the first five
draws at starting length 7, the generator raises the target length to 8 and
resets its attempt counter, so the loop continues exactly as a fresh loop at
length 8 with counter 0 (first conjunct); the sixth draw is therefore made
at length 8, and when it is free the loop returns it with final
`this.urlLength = 8` (second conjunct) — `CreateShortUrl.execute` carries
that `finalLen` into the outcome's `urlLength`, the state a subsequent
generation starts from, whose first draw is then made at length 8 (third
conjunct): the increase is permanent for the generator instance. -/
theorem c8_generator_escalates (store : Store) (nanoid : Nat → Nat → String)
    (fuel : Nat)
    (h0 : Store.shortCodeExists store (nanoid 0 7) = .ok true)
    (h1 : Store.shortCodeExists store (nanoid 1 7) = .ok true)
    (h2 : Store.shortCodeExists store (nanoid 2 7) = .ok true)
    (h3 : Store.shortCodeExists store (nanoid 3 7) = .ok true)
    (h4 : Store.shortCodeExists store (nanoid 4 7) = .ok true) :
    (genLoop store nanoid (fuel + 5) 7 0 0 [] =
      genLoop store nanoid fuel 8 0 5
        [(7, nanoid 0 7), (7, nanoid 1 7), (7, nanoid 2 7), (7, nanoid 3 7),
          (7, nanoid 4 7)]) ∧
    (Store.shortCodeExists store (nanoid 5 8) = .ok false → ∀ fuel2 : Nat,
      genLoop store nanoid (fuel2 + 6) 7 0 0 [] =
        .ok ⟨nanoid 5 8, 8, 6,
          [(7, nanoid 0 7), (7, nanoid 1 7), (7, nanoid 2 7), (7, nanoid 3 7),
            (7, nanoid 4 7), (8, nanoid 5 8)]⟩) ∧
    (∀ (nanoid2 : Nat → Nat → String) (fuel2 : Nat),
      Store.shortCodeExists store (nanoid2 0 8) = .ok false →
      genLoop store nanoid2 (fuel2 + 1) 8 0 0 [] =
        .ok ⟨nanoid2 0 8, 8, 1, [(8, nanoid2 0 8)]⟩) := by
  have step5 : ∀ f : Nat, genLoop store nanoid (f + 5) 7 0 0 [] =
      genLoop store nanoid f 8 0 5
        [(7, nanoid 0 7), (7, nanoid 1 7), (7, nanoid 2 7), (7, nanoid 3 7),
          (7, nanoid 4 7)] := by
    intro f
    show genLoop store nanoid (f + 4 + 1) 7 0 0 [] = _
    rw [genLoop]
    simp only [h0]
    norm_num
    show genLoop store nanoid (f + 3 + 1) 7 1 1 _ = _
    rw [genLoop]
    simp only [h1]
    norm_num
    show genLoop store nanoid (f + 2 + 1) 7 2 2 _ = _
    rw [genLoop]
    simp only [h2]
    norm_num
    show genLoop store nanoid (f + 1 + 1) 7 3 3 _ = _
    rw [genLoop]
    simp only [h3]
    norm_num
    show genLoop store nanoid (f + 0 + 1) 7 4 4 _ = _
    rw [genLoop]
    simp only [h4]
    norm_num
  refine ⟨step5 fuel, ?_, ?_⟩
  · intro h5 fuel2
    have hsix : fuel2 + 6 = (fuel2 + 1) + 5 := by omega
    rw [hsix, step5 (fuel2 + 1), genLoop]
    simp only [h5]
    norm_num
  · intro nanoid2 fuel2 hfree
    rw [genLoop]
    simp only [hfree]
    norm_num

/-- Witness for C8: five colliding draws against a concrete store, then the
sixth draw at length 8 succeeds. -/
theorem c8_generator_escalates_witness :
    genLoop
        ⟨[⟨"u", "c0", none, none, 0, none, true⟩,
          ⟨"u", "c1", none, none, 0, none, true⟩,
          ⟨"u", "c2", none, none, 0, none, true⟩,
          ⟨"u", "c3", none, none, 0, none, true⟩,
          ⟨"u", "c4", none, none, 0, none, true⟩], false⟩
        (fun k _ => ["c0", "c1", "c2", "c3", "c4", "c5"].getD k "cx")
        10 7 0 0 [] =
      .ok ⟨"c5", 8, 6,
        [(7, "c0"), (7, "c1"), (7, "c2"), (7, "c3"), (7, "c4"), (8, "c5")]⟩ :=
  (c8_generator_escalates
    ⟨[⟨"u", "c0", none, none, 0, none, true⟩,
      ⟨"u", "c1", none, none, 0, none, true⟩,
      ⟨"u", "c2", none, none, 0, none, true⟩,
      ⟨"u", "c3", none, none, 0, none, true⟩,
      ⟨"u", "c4", none, none, 0, none, true⟩], false⟩
    (fun k _ => ["c0", "c1", "c2", "c3", "c4", "c5"].getD k "cx")
    0 rfl rfl rfl rfl rfl).2.1 rfl 4


/-! ## Claim C9 -/

/-- Resolution never surfaces a cache error: both cache reads and writes
sit behind try/catch. -/
theorem resolve_never_cacheFailure (store : Store) (cache : Cache) (now : Int)
    (c : String) : ResolveUrl.execute store cache now c ≠ .error .cacheFailure := by
  intro h
  unfold ResolveUrl.execute ResolveUrl.missPath Store.findByShortCode at h
  by_cases hc : c.data.isEmpty = true
  · rw [if_pos hc] at h; simp at h
  · rw [if_neg hc] at h
    dsimp only at h
    by_cases ht : jsTruthyStr (ResolveUrl.fromCache cache c) = true
    · rw [if_pos ht] at h; simp at h
    · rw [if_neg ht] at h
      by_cases hsf : store.fails = true
      · rw [if_pos hsf] at h; simp at h
      · rw [if_neg hsf] at h
        cases hfind : store.links.find? (fun l => l.shortCode == c) with
        | none => rw [hfind] at h; simp at h
        | some l =>
          rw [hfind] at h
          dsimp only at h
          by_cases ha : (!l.isActive) = true
          · rw [if_pos ha] at h; simp at h
          · rw [if_neg ha] at h
            by_cases he : (match l.expiresAt with
                | some e => decide (e < now)
                | none => false) = true
            · rw [if_pos he] at h; simp at h
            · rw [if_neg he] at h; simp at h

/-- The generator loop touches no cache; its only errors are store failures
(or exhausted fuel). -/
theorem genLoop_ne_cacheFailure (store : Store) (nanoid : Nat → Nat → String) :
    ∀ (fuel len att ctr : Nat) (qs : List (Nat × String)),
      genLoop store nanoid fuel len att ctr qs ≠ .error .cacheFailure := by
  intro fuel
  induction fuel with
  | zero =>
    intro len att ctr qs h
    rw [genLoop] at h
    simp at h
  | succ n ih =>
    intro len att ctr qs h
    rw [genLoop] at h
    unfold Store.shortCodeExists at h
    by_cases hsf : store.fails = true
    · rw [if_pos hsf] at h; simp at h
    · rw [if_neg hsf] at h
      dsimp only at h
      by_cases hex :
          (store.links.any fun l => l.shortCode == nanoid ctr len) = true
      · simp only [hex, if_true] at h
        exact ih _ _ _ _ h
      · simp only [hex, Bool.false_eq_true, if_false] at h
        simp at h

/-- Creation never surfaces a cache error: the only cache touch is the
swallowed `_cacheUrl`. -/
theorem create_never_cacheFailure (nanoid : Nat → Nat → String) (fuel : Nat)
    (store : Store) (cache : Cache) (len : Nat) (now : Int)
    (input : CreateInput) :
    CreateShortUrl.execute nanoid fuel store cache len now input ≠
      .error .cacheFailure := by
  intro h
  unfold CreateShortUrl.execute at h
  dsimp only at h
  split at h
  · rename_i e heq
    unfold Store.findByOriginalUrl at heq
    split at heq
    · rw [Except.error.injEq] at heq
      subst heq
      simp at h
    · simp at heq
  · simp at h
  · split at h
    · rename_i e heq
      split at heq
      · split at heq
        · rw [Except.error.injEq] at heq; subst heq; simp at h
        · split at heq
          · rename_i e2 heq2
            unfold Store.customAliasExists at heq2
            split at heq2
            · rw [Except.error.injEq] at heq2
              rw [Except.error.injEq] at heq
              subst heq2; subst heq
              simp at h
            · simp at heq2
          · rw [Except.error.injEq] at heq; subst heq; simp at h
          · simp at heq
      · split at heq
        · rename_i e2 heq2
          rw [Except.error.injEq] at heq
          subst heq
          rw [Except.error.injEq] at h
          subst h
          exact genLoop_ne_cacheFailure store nanoid _ _ _ _ _ heq2
        · simp at heq
    · split at h
      · rename_i e heq
        unfold urlEntityValidate at heq
        split at heq
        · rw [Except.error.injEq] at heq; subst heq; simp at h
        · split at heq
          · rw [Except.error.injEq] at heq; subst heq; simp at h
          · split at heq
            · rw [Except.error.injEq] at heq; subst heq; simp at h
            · simp at heq
      · split at h
        · rename_i e heq
          unfold Store.create at heq
          split at heq
          · rw [Except.error.injEq] at heq; subst heq; simp at h
          · split at heq
            · rw [Except.error.injEq] at heq; subst heq; simp at h
            · simp at heq
        · simp at h

/-- A failing cache `get` is caught by `_getFromCache` and treated as a
miss: resolution proceeds to the record store. -/
theorem resolve_getFails_fallback (store : Store) (cache : Cache) (now : Int)
    (c : String) (hg : cache.getFails = true) (hc : c.data.isEmpty = false) :
    ResolveUrl.execute store cache now c =
      ResolveUrl.missPath store cache now c := by
  apply resolve_execute_miss hc
  unfold ResolveUrl.fromCache cacheGet
  rw [hg]
  rfl

/-- A failing cache `set` is swallowed by `_cacheUrl`: creation returns the
very outcome of a run with a healthy cache, only without the cache
update. -/
theorem create_setFails_absorbed (nanoid : Nat → Nat → String) (fuel : Nat)
    (store : Store) (es : List (String × String)) (gf : Bool) (len : Nat)
    (now : Int) (input : CreateInput) :
    CreateShortUrl.execute nanoid fuel store ⟨es, gf, true⟩ len now input =
      (CreateShortUrl.execute nanoid fuel store ⟨es, gf, false⟩ len now
          input).map
        (fun o => ⟨o.link, o.store, ⟨es, gf, true⟩, o.urlLength,
          o.nanoidCalls⟩) := by
  unfold CreateShortUrl.execute
  dsimp only
  split
  · rfl
  · rfl
  · split
    · rfl
    · split
      · rfl
      · split
        · rfl
        · rfl

/-- A record-store failure during creation propagates raw (the first
repository call already rejects). -/
theorem create_storeFails_propagates (nanoid : Nat → Nat → String) (fuel : Nat)
    (links : List Link) (cache : Cache) (len : Nat) (now : Int)
    (input : CreateInput) :
    CreateShortUrl.execute nanoid fuel ⟨links, true⟩ cache len now input =
      .error .storeFailure := rfl

/-- A record-store failure during a cache-miss resolution propagates
raw. -/
theorem resolve_storeFails_propagates (links : List Link) (cache : Cache)
    (now : Int) (c : String) (hc : c.data.isEmpty = false)
    (hm : jsTruthyStr (ResolveUrl.fromCache cache c) = false) :
    ResolveUrl.execute ⟨links, true⟩ cache now c = .error .storeFailure := by
  rw [resolve_execute_miss hc hm]
  rfl

/-- C9: cache failures are absorbed and store failures propagate.
Conjuncts: (1) resolution never returns the cache error; (2) creation never
returns the cache error; (3) a failed cache get makes resolution fall
through to the store path; (4) a failed cache set leaves creation's result
intact, only the cache unwritten; (5) creation against a failing store
propagates the store error; (6) cache-miss resolution against a failing
store propagates the store error. -/
theorem c9_cache_failures_absorbed :
    (∀ (store : Store) (cache : Cache) (now : Int) (c : String),
      ResolveUrl.execute store cache now c ≠ .error .cacheFailure) ∧
    (∀ (nanoid : Nat → Nat → String) (fuel : Nat) (store : Store)
        (cache : Cache) (len : Nat) (now : Int) (input : CreateInput),
      CreateShortUrl.execute nanoid fuel store cache len now input ≠
        .error .cacheFailure) ∧
    (∀ (store : Store) (cache : Cache) (now : Int) (c : String),
      cache.getFails = true → c.data.isEmpty = false →
      ResolveUrl.execute store cache now c =
        ResolveUrl.missPath store cache now c) ∧
    (∀ (nanoid : Nat → Nat → String) (fuel : Nat) (store : Store)
        (es : List (String × String)) (gf : Bool) (len : Nat) (now : Int)
        (input : CreateInput),
      CreateShortUrl.execute nanoid fuel store ⟨es, gf, true⟩ len now input =
        (CreateShortUrl.execute nanoid fuel store ⟨es, gf, false⟩ len now
            input).map
          (fun o => ⟨o.link, o.store, ⟨es, gf, true⟩, o.urlLength,
            o.nanoidCalls⟩)) ∧
    (∀ (nanoid : Nat → Nat → String) (fuel : Nat) (links : List Link)
        (cache : Cache) (len : Nat) (now : Int) (input : CreateInput),
      CreateShortUrl.execute nanoid fuel ⟨links, true⟩ cache len now input =
        .error .storeFailure) ∧
    (∀ (links : List Link) (cache : Cache) (now : Int) (c : String),
      c.data.isEmpty = false →
      jsTruthyStr (ResolveUrl.fromCache cache c) = false →
      ResolveUrl.execute ⟨links, true⟩ cache now c = .error .storeFailure) :=
  ⟨resolve_never_cacheFailure, create_never_cacheFailure,
    resolve_getFails_fallback, create_setFails_absorbed,
    create_storeFails_propagates, resolve_storeFails_propagates⟩

/-- Witness for C9: with a broken cache `get` the cached entry is ignored
and resolution falls through to the store path, and a broken store fails a
resolution loudly. -/
theorem c9_cache_failures_absorbed_witness :
    ResolveUrl.execute ⟨[], false⟩ ⟨[("url:abc", "https://a.com")], true,
        false⟩ 0 "abc" =
      ResolveUrl.missPath ⟨[], false⟩ ⟨[("url:abc", "https://a.com")], true,
        false⟩ 0 "abc" ∧
    ResolveUrl.execute ⟨[], true⟩ ⟨[], false, false⟩ 0 "abc" =
      .error .storeFailure :=
  ⟨c9_cache_failures_absorbed.2.2.1 ⟨[], false⟩
      ⟨[("url:abc", "https://a.com")], true, false⟩ 0 "abc" rfl rfl,
    c9_cache_failures_absorbed.2.2.2.2.2 [] ⟨[], false, false⟩ 0 "abc"
      rfl rfl⟩


/-! ## Claim C10 -/

/-- The falsy-label fallback never changes a count. -/
theorem jsFallbackRow_count (r : ReferrerRow) :
    (jsFallbackRow r).count = r.count := by
  unfold jsFallbackRow
  split <;> rfl

/-- Descending insertion permutes. -/
theorem insertDesc_perm (x : ReferrerRow) (l : List ReferrerRow) :
    (insertDesc x l).Perm (x :: l) := by
  induction l with
  | nil => exact List.Perm.refl _
  | cons y ys ih =>
    unfold insertDesc
    by_cases h : x.count ≤ y.count
    · rw [if_pos h]
      exact (ih.cons y).trans (List.Perm.swap x y ys)
    · rw [if_neg h]

/-- The descending sort is a permutation. -/
theorem sortDesc_perm (l : List ReferrerRow) : (sortDesc l).Perm l := by
  induction l with
  | nil => exact List.Perm.refl _
  | cons x xs ih => exact (insertDesc_perm x (sortDesc xs)).trans (ih.cons x)

/-- Members of an insertion come from the inserted row or the list. -/
theorem mem_insertDesc {x y : ReferrerRow} {l : List ReferrerRow}
    (h : y ∈ insertDesc x l) : y = x ∨ y ∈ l := by
  induction l with
  | nil =>
    unfold insertDesc at h
    simpa using h
  | cons z zs ih =>
    unfold insertDesc at h
    by_cases hc : x.count ≤ z.count
    · rw [if_pos hc] at h
      rcases List.mem_cons.mp h with h | h
      · right; exact h ▸ List.mem_cons_self z zs
      · rcases ih h with h | h
        · exact Or.inl h
        · exact Or.inr (List.mem_cons_of_mem z h)
    · rw [if_neg hc] at h
      rcases List.mem_cons.mp h with h | h
      · exact Or.inl h
      · exact Or.inr h

/-- Descending insertion preserves descending-count order. -/
theorem insertDesc_pairwise {x : ReferrerRow} {l : List ReferrerRow}
    (hl : l.Pairwise (fun a b => b.count ≤ a.count)) :
    (insertDesc x l).Pairwise (fun a b => b.count ≤ a.count) := by
  induction l with
  | nil => simp [insertDesc]
  | cons y ys ih =>
    rcases List.pairwise_cons.mp hl with ⟨hy, hys⟩
    unfold insertDesc
    by_cases hc : x.count ≤ y.count
    · rw [if_pos hc]
      refine List.pairwise_cons.mpr ⟨?_, ih hys⟩
      intro z hz
      rcases mem_insertDesc hz with rfl | hz
      · exact hc
      · exact hy z hz
    · rw [if_neg hc]
      push_neg at hc
      refine List.pairwise_cons.mpr ⟨?_, hl⟩
      intro z hz
      rcases List.mem_cons.mp hz with rfl | hz
      · exact le_of_lt hc
      · exact le_trans (hy z hz) (le_of_lt hc)

/-- The sort output is pairwise descending by count. -/
theorem sortDesc_pairwise (l : List ReferrerRow) :
    (sortDesc l).Pairwise (fun a b => b.count ≤ a.count) := by
  induction l with
  | nil => simp [sortDesc]
  | cons x xs ih => exact insertDesc_pairwise ih

/-- C10 (amended): on the `referrers` view with an existing code and a memo
miss, `getAnalytics` returns `getReferrerStats` and memoizes it; the rows
are a permutation of one row per distinct RAW referrer value (`null`/missing
is one group, the empty string a separate one, each labelled `Direct/None`
after grouping) carrying that value's occurrence count, and they are sorted
descending by count.  Absent referrers are not merged into a single
sentinel row. -/
theorem c10_referrer_stats (store : Store) (events : List ClickEvent)
    (cache : AnalyticsCache) (code : String)
    (hc : code.data.isEmpty = false)
    (hex : Store.shortCodeExists store code = .ok true)
    (hmiss : (match cacheGet cache (referrersCacheKey code) with
      | .error _ => none
      | .ok v => v) = (none : Option (List ReferrerRow))) :
    GetUrlAnalytics.executeReferrers store events cache code =
      .ok (getReferrerStats events code,
        match cacheSet cache (referrersCacheKey code)
            (getReferrerStats events code) with
        | .error _ => cache
        | .ok c2 => c2) ∧
    (getReferrerStats events code).Perm
      ((groupRows events code).map (fun p => jsFallbackRow (projectRow p))) ∧
    (getReferrerStats events code).Pairwise
      (fun a b => b.count ≤ a.count) := by
  refine ⟨?_, ?_, ?_⟩
  · unfold GetUrlAnalytics.executeReferrers
    rw [hc]
    simp only [Bool.false_eq_true, if_false, hex]
    rw [hmiss]
  · unfold getReferrerStats
    have hperm := (sortDesc_perm ((groupRows events code).map projectRow)).map
      jsFallbackRow
    refine hperm.trans ?_
    rw [List.map_map]
    exact List.Perm.refl _
  · unfold getReferrerStats
    refine List.Pairwise.map jsFallbackRow ?_
      (sortDesc_pairwise ((groupRows events code).map projectRow))
    intro a b hab
    rw [jsFallbackRow_count, jsFallbackRow_count]
    exact hab

/-- C10 counterexample: one `null`-referrer event and two empty-string
events produce two distinct rows both labelled `Direct/None` (counts 2 and
1) instead of a single merged sentinel row of count 3: the `$group` stage
keys on the raw value before either sentinel substitution happens. -/
theorem c10_referrers_two_sentinel_rows_cex :
    GetUrlAnalytics.executeReferrers
        ⟨[⟨"https://x.com", "abc", none, none, 0, none, true⟩], false⟩
        [⟨"abc", none, 0⟩, ⟨"abc", some "", 1⟩, ⟨"abc", some "", 2⟩]
        ⟨[], false, false⟩ "abc" =
      .ok ([⟨"Direct/None", 2⟩, ⟨"Direct/None", 1⟩],
        ⟨[(referrersCacheKey "abc",
          [⟨"Direct/None", 2⟩, ⟨"Direct/None", 1⟩])], false, false⟩) ∧
    ([⟨"Direct/None", 2⟩, ⟨"Direct/None", 1⟩] : List ReferrerRow).map
        (fun r => r.referrer) = ["Direct/None", "Direct/None"] :=
  ⟨rfl, rfl⟩

/-- Witness for C10's amended claim at a concrete event log with two
distinct nonempty referrers. -/
theorem c10_referrer_stats_witness :
    GetUrlAnalytics.executeReferrers
        ⟨[⟨"https://x.com", "abc", none, none, 0, none, true⟩], false⟩
        [⟨"abc", some "r1", 0⟩, ⟨"abc", some "r1", 1⟩, ⟨"abc", some "r2", 2⟩]
        ⟨[], false, false⟩ "abc" =
      .ok ([⟨"r1", 2⟩, ⟨"r2", 1⟩],
        ⟨[(referrersCacheKey "abc", [⟨"r1", 2⟩, ⟨"r2", 1⟩])], false,
          false⟩) :=
  (c10_referrer_stats
    ⟨[⟨"https://x.com", "abc", none, none, 0, none, true⟩], false⟩
    [⟨"abc", some "r1", 0⟩, ⟨"abc", some "r1", 1⟩, ⟨"abc", some "r2", 2⟩]
    ⟨[], false, false⟩ "abc" rfl rfl rfl).1

end Shortly